import Mathlib

/-!
Verification of the rscap screen recorder (src/main.rs, src/gui.rs).

The recorder's core is the async function start_recording (src/main.rs:36-225):
it negotiates a screen-capture session over the desktop portal, duplicates the
stream's file descriptor, opens an FFmpeg input on it, decodes the video
stream, re-encodes it to H.264 and muxes it into a custom IO context that
writes into an OCI object-storage uploader.

We embed start_recording shallowly as a function from the request parameters
plus an environment (an oracle for every external call: portal RPCs, libc dup,
FFmpeg calls, codec behaviour) to a result together with a trace of the
externally visible events the function performs, in order.  Pure helpers of
the FFmpeg library that the code relies on for its timestamp semantics
(av_rescale_rnd / av_rescale_q / av_packet_rescale_ts) are embedded from their
C sources as integer functions.
-/

/-- AVRational: a time base with integer numerator and denominator. -/
structure Rational where
  num : Int
  den : Int
deriving DecidableEq, Repr

/-- The timestamp fields of an AVPacket that av_packet_rescale_ts touches,
plus the stream index set by Packet::set_stream (src/main.rs:172,203). -/
structure Packet where
  streamIndex : Nat
  pts : Int
  dts : Int
  duration : Int
deriving DecidableEq, Repr

/-- AV_NOPTS_VALUE, i.e. INT64_MIN. -/
def avNoptsValue : Int := -(2 ^ 63)

/-- av_rescale_rnd with rnd = AV_ROUND_NEAR_INF (the av_rescale_q case):
round a * b / c to the nearest integer, halfway cases away from zero.
The C source computes (a * b + c / 2) / c for a >= 0 (all divisions
truncating toward zero) and negates the rescaling of -a for a < 0. -/
def avRescaleRnd (a b c : Int) : Int :=
  if a < 0 then -(Int.tdiv ((-a) * b + Int.tdiv c 2) c)
  else Int.tdiv (a * b + Int.tdiv c 2) c

/-- av_rescale_q: rescale a from time base bq to time base cq, computed as
av_rescale_rnd a (bq.num * cq.den) (cq.num * bq.den). -/
def avRescaleQ (a : Int) (bq cq : Rational) : Int :=
  avRescaleRnd a (bq.num * cq.den) (cq.num * bq.den)

/-- av_packet_rescale_ts, the meaning of Packet::rescale_ts (src/main.rs:173):
pts and dts are rescaled unless they are AV_NOPTS_VALUE, duration is rescaled
when positive. -/
def rescaleTs (p : Packet) (src dst : Rational) : Packet :=
  { p with
    pts := if p.pts = avNoptsValue then p.pts else avRescaleQ p.pts src dst
    dts := if p.dts = avNoptsValue then p.dts else avRescaleQ p.dts src dst
    duration := if 0 < p.duration then avRescaleQ p.duration src dst else p.duration }

/-- Packet::set_stream (src/main.rs:172,203). -/
def setStream (p : Packet) (idx : Nat) : Packet :=
  { p with streamIndex := idx }

/-- The packet written for each encoded packet in the Streaming loop
(src/main.rs:171-174): set_stream to the output stream index, then
rescale_ts from the decoder time base to the output stream time base. -/
def writeStepStreaming (decTb outTb : Rational) (oIdx : Nat) (p : Packet) : Packet :=
  rescaleTs (setStream p oIdx) decTb outTb

/-- The packet written for each encoded packet in the end-of-stream drain loop
(src/main.rs:202-204): set_stream only; the source performs no rescale_ts on
this path. -/
def writeStepDraining (oIdx : Nat) (p : Packet) : Packet :=
  setStream p oIdx

/-- ffmpeg_next::Error.  Every errno-carrying error (AVERROR(errno), which is
how EAGAIN reaches receive_frame / receive_packet) is the `other` variant;
the remaining variants are FFmpeg's dedicated error codes. -/
inductive FFError
  | bug
  | bug2
  | unknown
  | experimental
  | bufferTooSmall
  | eof
  | exited
  | external
  | invalidData
  | patchWelcome
  | protocolNotFound
  | streamNotFound
  | bitstreamNotFound
  | decoderNotFound
  | demuxerNotFound
  | encoderNotFound
  | filterNotFound
  | muxerNotFound
  | optionNotFound
  | httpBadRequest
  | httpForbidden
  | httpNotFound
  | httpOther4xx
  | httpServerError
  | httpUnauthorized
  | other (errno : Int)
deriving DecidableEq, Repr

/-- The errno value EAGAIN on Linux; AVERROR(EAGAIN) is FFmpeg's
"no output ready yet" condition for receive_frame / receive_packet. -/
def eagain : Int := 11

/-- Whether an error matches the break arms
Err(Error::Other { .. }) | Err(Error::Eof) of the drain loops
(src/main.rs:177-178, 183, 207-208). -/
def FFError.breaksDrain : FFError → Bool
  | .other _ => true
  | .eof => true
  | _ => false

/-- The error results start_recording can return, one constructor per
anyhow error in src/main.rs, in source order. -/
inductive RecErr
  | contextError
  | connectionError
  | proxyError
  | createSessionError
  | selectSourcesError
  | startError
  | noStreams
  | dupFailed
  | ffmpegInitError
  | inputOpenError
  | noVideoStream
  | decoderOpenError
  | ioError
  | outputError
  | h264NotFound
  | addStreamError
  | getEncoderError
  | encoderOpenError
  | writeHeaderError
  | sendPacketError (e : FFError)
  | receiveFrame (e : FFError)
  | sendFrame (e : FFError)
  | receivePacket (e : FFError)
  | writePacketErr (e : FFError)
  | sendEofDecoder (e : FFError)
  | getEncoderFinish
  | sendEofEncoder (e : FFError)
  | receiveFinalPacket (e : FFError)
  | writeFinalPacket (e : FFError)
  | writeTrailerError
  | finalizeError
deriving DecidableEq, Repr

inductive PixelFormat
  | yuv420p
  | yuv422p
  | nv12
  | rgb24
deriving DecidableEq, Repr

/-- Two's-complement wrap-around of a mathematical integer into i64. -/
def wrap64 (x : Int) : Int :=
  (x + 2 ^ 63) % 2 ^ 64 - 2 ^ 63

/-- i64 multiplication (wrapping, as Rust release-mode overflow semantics). -/
def i64Mul (x y : Int) : Int := wrap64 (x * y)

/-- The bit rate configured on the encoder: params.bitrate as i64 * 1000
(src/main.rs:142); the u32 value is cast exactly, the product is i64. -/
def bitRateOf (bitrateKbps : Nat) : Int := i64Mul (bitrateKbps : Int) 1000

/-- The encoder configuration assembled in src/main.rs:138-145. -/
structure EncoderConfig where
  width : Nat
  height : Nat
  pixFormat : PixelFormat
  timeBase : Rational
  bitRate : Int
  globalHeaderFlag : Bool
deriving DecidableEq, Repr

/-- What the decoder context exposes and the encoder copies
(src/main.rs:138-141). -/
structure DecoderInfo where
  width : Nat
  height : Nat
  timeBase : Rational
deriving DecidableEq, Repr

/-- What the output format context exposes (src/main.rs:125). -/
structure OutputInfo where
  globalHeader : Bool
deriving DecidableEq, Repr

/-- What the added output stream exposes: its index and time base
(src/main.rs:172-173, 203). -/
structure OStreamInfo where
  index : Nat
  timeBase : Rational
deriving DecidableEq, Repr

/-- StreamInfo from the portal Start response (src/main.rs:30-33). -/
structure StreamInfo where
  fd : Int
  nodeId : Nat
deriving DecidableEq, Repr

/-- RecordParams (src/gui.rs:10-24).  bitrate is a u32 (kilobits). -/
structure RecordParams where
  outputFolder : String
  filenameTemplate : String
  container : String
  bitrate : Nat
  encodingMode : String
  audioDevice : String
deriving DecidableEq, Repr

/-- Encoder configuration as built in src/main.rs:138-145: width, height
copied from the decoder, fixed YUV420P pixel format, time base copied from
the decoder, bit rate = bitrate as i64 * 1000, and the GLOBAL_HEADER flag set
exactly when the output format requires it (src/main.rs:125,143-145). -/
def encoderConfigOf (dec : DecoderInfo) (globalHeader : Bool) (bitrateKbps : Nat) :
    EncoderConfig :=
  { width := dec.width
    height := dec.height
    pixFormat := PixelFormat.yuv420p
    timeBase := dec.timeBase
    bitRate := bitRateOf bitrateKbps
    globalHeaderFlag := globalHeader }

/-- Externally visible events of one start_recording execution, in order. -/
inductive Event
  | dupFd (ret : Int)
  | ffmpegInit
  | openInput
  | openDecoder
  | sinkNew (bucket object : String)
  | configureEncoder (cfg : EncoderConfig)
  | writeHeader
  | sendPacketDec
  | sendFrameEnc
  | writePacket (p : Packet)
  | sendEofDec
  | sendEofEnc
  | writeTrailer
  | sinkFinalize
  | closeFd (fd : Int)
deriving DecidableEq, Repr

/-- Whether an event is a close of a file descriptor. -/
def Event.isCloseFd : Event → Bool
  | .closeFd _ => true
  | _ => false

/-- Number of sink finalize invocations in a trace. -/
def countFinalize (tr : List Event) : Nat :=
  tr.countP (fun ev => decide (ev = Event.sinkFinalize))

/-- Result-and-trace monadic values: the outcome of a (partial) execution
together with the events it performed. -/
abbrev M (α : Type) : Type := Except RecErr α × List Event

def M.pure (a : α) : M α := (Except.ok a, [])

def M.fail (e : RecErr) : M α := (Except.error e, [])

/-- Perform an externally visible event, then continue. -/
def M.tag (ev : Event) (x : M α) : M α := (x.1, ev :: x.2)

def M.bind (x : M α) (f : α → M β) : M β :=
  match x.1 with
  | Except.error e => (Except.error e, x.2)
  | Except.ok a => ((f a).1, x.2 ++ (f a).2)

/-- Embedding of `expr.map_err(..)?` on a boolean-oracle call: continue when
the call succeeded, abort with the wrapped error otherwise. -/
def M.require (c : Bool) (e : RecErr) (x : M α) : M α :=
  if c then x else M.fail e

/-- Embedding of `opt.ok_or_else(..)?` / fallible calls returning a value:
continue with the value when present, abort otherwise. -/
def M.orFail (o : Option γ) (e : RecErr) (f : γ → M α) : M α :=
  match o with
  | none => M.fail e
  | some a => f a

/-- Embedding of `if cond { return Err(..) }`. -/
def M.reject (c : Prop) [Decidable c] (e : RecErr) (x : M α) : M α :=
  if c then M.fail e else x

/-- One response of decoder/encoder receive calls in the drain loops: either
an output unit is ready (for the encoder, together with whether the
subsequent muxer write fails), or an error is returned. -/
inductive EncResp
  | pkt (p : Packet) (writeErr : Option FFError)
  | err (e : FFError)
deriving DecidableEq, Repr

/-- One response of decoder.receive_frame: a frame (with the behaviour of
sending it to the encoder: send_frame outcome and the encoder's packet
script), or an error. -/
inductive DecResp
  | frame (sendErr : Option FFError) (enc : List EncResp)
  | err (e : FFError)
deriving DecidableEq, Repr

/-- One demuxed input packet: its stream index, the outcome of
decoder.send_packet for it, and the decoder's receive_frame script. -/
structure InPacket where
  streamIdx : Nat
  sendErr : Option FFError
  decScript : List DecResp
deriving DecidableEq, Repr

/-- Oracle for every external call start_recording makes, in source order. -/
structure Env where
  contextOk : Bool
  connectionOk : Bool
  proxyOk : Bool
  createSessionRes : Option String
  selectSourcesOk : Bool
  startRes : Option (List StreamInfo)
  dupRet : Int
  ffmpegInitOk : Bool
  inputOpenOk : Bool
  bestVideo : Option Nat
  decoderOpen : Option DecoderInfo
  ioOk : Bool
  outputOpen : Option OutputInfo
  h264Found : Bool
  addStreamRes : Option OStreamInfo
  getEncoderOk : Bool
  encoderOpenOk : Bool
  writeHeaderOk : Bool
  packets : List InPacket
  sendEofDecErr : Option FFError
  getEncoderFinishOk : Bool
  sendEofEncErr : Option FFError
  finalScript : List EncResp
  writeTrailerOk : Bool
  finalizeOk : Bool
deriving Repr

/-- The inner encoder drain loop of the Streaming state (src/main.rs:169-181):
each ready packet gets set_stream, rescale_ts from the decoder time base to
the output stream time base, and is written to the muxer; Other/Eof errors
break the loop, any other receive error or a write error is fatal. -/
def encLoopStream (decTb outTb : Rational) (oIdx : Nat) : List EncResp → M Unit
  | [] => M.pure ()
  | EncResp.err (FFError.other _) :: _ => M.pure ()
  | EncResp.err FFError.eof :: _ => M.pure ()
  | EncResp.err e :: _ => M.fail (RecErr.receivePacket e)
  | EncResp.pkt p werr :: rest =>
    M.tag (Event.writePacket (writeStepStreaming decTb outTb oIdx p))
      (match werr with
       | some e => M.fail (RecErr.writePacketErr e)
       | none => encLoopStream decTb outTb oIdx rest)

/-- The decoder drain loop of the Streaming state (src/main.rs:159-186):
each ready frame is sent to the encoder and the encoder is drained;
Other/Eof errors break the loop, any other receive error is fatal. -/
def decLoop (decTb outTb : Rational) (oIdx : Nat) : List DecResp → M Unit
  | [] => M.pure ()
  | DecResp.err (FFError.other _) :: _ => M.pure ()
  | DecResp.err FFError.eof :: _ => M.pure ()
  | DecResp.err e :: _ => M.fail (RecErr.receiveFrame e)
  | DecResp.frame sendErr enc :: rest =>
    M.tag Event.sendFrameEnc
      (match sendErr with
       | some e => M.fail (RecErr.sendFrame e)
       | none =>
         M.bind (encLoopStream decTb outTb oIdx enc)
           (fun _ => decLoop decTb outTb oIdx rest))

/-- The Streaming packet loop (src/main.rs:155-188): packets whose stream
index differs from the selected input stream are discarded; the others are
sent to the decoder, which is then drained. -/
def streamLoop (inIdx : Nat) (decTb outTb : Rational) (oIdx : Nat) :
    List InPacket → M Unit
  | [] => M.pure ()
  | ip :: rest =>
    if ip.streamIdx = inIdx then
      M.tag Event.sendPacketDec
        (match ip.sendErr with
         | some e => M.fail (RecErr.sendPacketError e)
         | none =>
           M.bind (decLoop decTb outTb oIdx ip.decScript)
             (fun _ => streamLoop inIdx decTb outTb oIdx rest))
    else
      streamLoop inIdx decTb outTb oIdx rest

/-- The end-of-stream encoder drain loop (src/main.rs:200-211): each ready
packet gets set_stream and is written to the muxer; note the source performs
no rescale_ts here, unlike the Streaming loop.  Other/Eof errors break the
loop, any other receive error or a write error is fatal. -/
def encLoopFinal (oIdx : Nat) : List EncResp → M Unit
  | [] => M.pure ()
  | EncResp.err (FFError.other _) :: _ => M.pure ()
  | EncResp.err FFError.eof :: _ => M.pure ()
  | EncResp.err e :: _ => M.fail (RecErr.receiveFinalPacket e)
  | EncResp.pkt p werr :: rest =>
    M.tag (Event.writePacket (writeStepDraining oIdx p))
      (match werr with
       | some e => M.fail (RecErr.writeFinalPacket e)
       | none => encLoopFinal oIdx rest)

/-- The portal negotiation (src/main.rs:44-78): pipewire context, D-Bus
session connection, proxy construction, CreateSession, SelectSources, Start.
All failures abort; the value is the Start response's stream list. -/
def negotiate (env : Env) : M (List StreamInfo) :=
  M.require env.contextOk RecErr.contextError
    (M.require env.connectionOk RecErr.connectionError
      (M.require env.proxyOk RecErr.proxyError
        (M.orFail env.createSessionRes RecErr.createSessionError
          (fun _ =>
            M.require env.selectSourcesOk RecErr.selectSourcesError
              (M.orFail env.startRes RecErr.startError
                (fun streams => M.pure streams))))))

/-- Setup after a stream was selected (src/main.rs:86-152): dup the
descriptor, init FFmpeg, open the input, pick the best video stream, open the
decoder, construct the OciUploader sink on (bucket, object name), create the
IO context and output context, read the global-header flag, find the H264
encoder, add the output stream, configure and open the encoder, write the
container header.  Returns the selected input index, the decoder info and
the output stream info. -/
def setupPhase (p : RecordParams) (env : Env) : M (Nat × DecoderInfo × OStreamInfo) :=
  M.tag (Event.dupFd env.dupRet)
    (M.reject (env.dupRet < 0) RecErr.dupFailed
      (M.tag Event.ffmpegInit
        (M.require env.ffmpegInitOk RecErr.ffmpegInitError
          (M.tag Event.openInput
            (M.require env.inputOpenOk RecErr.inputOpenError
              (M.orFail env.bestVideo RecErr.noVideoStream
                (fun inIdx =>
                  M.tag Event.openDecoder
                    (M.orFail env.decoderOpen RecErr.decoderOpenError
                      (fun dec =>
                        M.tag (Event.sinkNew p.outputFolder
                                (p.filenameTemplate ++ "." ++ p.container))
                          (M.require env.ioOk RecErr.ioError
                            (M.orFail env.outputOpen RecErr.outputError
                              (fun outInfo =>
                                M.require env.h264Found RecErr.h264NotFound
                                  (M.orFail env.addStreamRes RecErr.addStreamError
                                    (fun ost =>
                                      M.require env.getEncoderOk RecErr.getEncoderError
                                        (M.tag (Event.configureEncoder
                                                 (encoderConfigOf dec outInfo.globalHeader
                                                   p.bitrate))
                                          (M.require env.encoderOpenOk
                                            RecErr.encoderOpenError
                                            (M.tag Event.writeHeader
                                              (M.require env.writeHeaderOk
                                                RecErr.writeHeaderError
                                                (M.pure (inIdx, dec, ost))))))))))))))))))))

/-- End-of-stream drain and finish (src/main.rs:190-224): send EOF to the
decoder, re-acquire the encoder, send EOF to the encoder, drain the encoder
into the muxer, write the trailer and finalize the upload sink. -/
def drainFinish (env : Env) (ost : OStreamInfo) : M Unit :=
  M.tag Event.sendEofDec
    (match env.sendEofDecErr with
     | some e => M.fail (RecErr.sendEofDecoder e)
     | none =>
       M.require env.getEncoderFinishOk RecErr.getEncoderFinish
         (M.tag Event.sendEofEnc
           (match env.sendEofEncErr with
            | some e => M.fail (RecErr.sendEofEncoder e)
            | none =>
              M.bind (encLoopFinal ost.index env.finalScript)
                (fun _ =>
                  M.require env.writeTrailerOk RecErr.writeTrailerError
                    (M.tag Event.writeTrailer
                      (M.tag Event.sinkFinalize
                        (M.require env.finalizeOk RecErr.finalizeError
                          (M.pure ()))))))))

/-- Full start_recording (src/main.rs:36-225). -/
def startRecording (p : RecordParams) (env : Env) : M Unit :=
  M.bind (negotiate env)
    (fun streams =>
      match streams.head? with
      | none => M.fail RecErr.noStreams
      | some _ =>
        M.bind (setupPhase p env)
          (fun info =>
            M.bind (streamLoop info.1 info.2.1.timeBase info.2.2.timeBase
                      info.2.2.index env.packets)
              (fun _ => drainFinish env info.2.2)))

/-- The concrete request of the spec's test scenario. -/
def pDemo : RecordParams :=
  { outputFolder := "rec"
    filenameTemplate := "demo"
    container := "mp4"
    bitrate := 2000
    encodingMode := "CBR"
    audioDevice := "default" }

/-- The same request with different rate-control mode and audio device. -/
def pDemoVbr : RecordParams :=
  { pDemo with encodingMode := "VBR", audioDevice := "Device 1" }

/-- A millisecond decoder time base. -/
def tbDec : Rational := { num := 1, den := 1000 }

/-- A 90 kHz output stream time base. -/
def tbOut : Rational := { num := 1, den := 90000 }

def decDemo : DecoderInfo := { width := 1280, height := 720, timeBase := tbDec }

def ostDemo : OStreamInfo := { index := 0, timeBase := tbOut }

/-- A raw encoded packet as the encoder hands it out. -/
def pktRaw : Packet := { streamIndex := 0, pts := 1, dts := 1, duration := 1 }

/-- A fully successful environment: the portal yields one stream, every call
succeeds, one input packet decodes to one frame yielding one packet, and one
more packet is released during the end-of-stream drain. -/
def envHappy : Env :=
  { contextOk := true
    connectionOk := true
    proxyOk := true
    createSessionRes := some "session0"
    selectSourcesOk := true
    startRes := some [{ fd := 7, nodeId := 42 }]
    dupRet := 8
    ffmpegInitOk := true
    inputOpenOk := true
    bestVideo := some 0
    decoderOpen := some decDemo
    ioOk := true
    outputOpen := some { globalHeader := true }
    h264Found := true
    addStreamRes := some ostDemo
    getEncoderOk := true
    encoderOpenOk := true
    writeHeaderOk := true
    packets := [{ streamIdx := 0
                  sendErr := none
                  decScript := [DecResp.frame none [EncResp.pkt pktRaw none,
                                  EncResp.err (FFError.other eagain)],
                                DecResp.err (FFError.other eagain)] }]
    sendEofDecErr := none
    getEncoderFinishOk := true
    sendEofEncErr := none
    finalScript := [EncResp.pkt pktRaw none, EncResp.err FFError.eof]
    writeTrailerOk := true
    finalizeOk := true }

/-- The happy environment, but the portal Start call answers with zero
streams. -/
def envNoStream : Env := { envHappy with startRes := some [] }

deriving instance DecidableEq for Except

@[simp] theorem M.tag_fst (ev : Event) (x : M α) : (M.tag ev x).1 = x.1 := rfl

@[simp] theorem M.tag_snd (ev : Event) (x : M α) : (M.tag ev x).2 = ev :: x.2 := rfl

@[simp] theorem M.pure_fst (a : α) : (M.pure a : M α).1 = Except.ok a := rfl

@[simp] theorem M.pure_snd (a : α) : (M.pure a : M α).2 = ([] : List Event) := rfl

@[simp] theorem M.fail_fst (e : RecErr) : (M.fail e : M α).1 = Except.error e := rfl

@[simp] theorem M.fail_snd (e : RecErr) : (M.fail e : M α).2 = ([] : List Event) := rfl

@[simp] theorem M.require_true (e : RecErr) (x : M α) : M.require true e x = x := rfl

@[simp] theorem M.require_false (e : RecErr) (x : M α) :
    M.require false e x = M.fail e := rfl

@[simp] theorem M.orFail_none (e : RecErr) (f : γ → M α) :
    M.orFail (none : Option γ) e f = M.fail e := rfl

@[simp] theorem M.orFail_some (a : γ) (e : RecErr) (f : γ → M α) :
    M.orFail (some a) e f = f a := rfl

theorem M.reject_pos {c : Prop} [Decidable c] (h : c) (e : RecErr) (x : M α) :
    M.reject c e x = M.fail e := by
  simp [M.reject, h]

theorem M.reject_neg {c : Prop} [Decidable c] (h : ¬c) (e : RecErr) (x : M α) :
    M.reject c e x = x := by
  simp [M.reject, h]

theorem M.mem_bind {x : M α} {f : α → M β} {ev : Event} :
    ev ∈ (M.bind x f).2 ↔ ev ∈ x.2 ∨ ∃ a, x.1 = Except.ok a ∧ ev ∈ (f a).2 := by
  cases hx : x.1 <;> simp [M.bind, hx]

theorem M.bind_fst_ok {x : M α} {f : α → M β} {a : α} (h : x.1 = Except.ok a) :
    (M.bind x f).1 = (f a).1 := by
  simp [M.bind, h]

theorem M.bind_snd_ok {x : M α} {f : α → M β} {a : α} (h : x.1 = Except.ok a) :
    (M.bind x f).2 = x.2 ++ (f a).2 := by
  simp [M.bind, h]

theorem M.bind_fst_error {x : M α} {f : α → M β} {e : RecErr}
    (h : x.1 = Except.error e) : (M.bind x f).1 = Except.error e := by
  simp [M.bind, h]

theorem M.bind_snd_error {x : M α} {f : α → M β} {e : RecErr}
    (h : x.1 = Except.error e) : (M.bind x f).2 = x.2 := by
  simp [M.bind, h]

theorem M.mem_require {c : Bool} {e : RecErr} {x : M α} {ev : Event} :
    ev ∈ (M.require c e x).2 ↔ c = true ∧ ev ∈ x.2 := by
  cases c <;> simp

theorem M.mem_orFail {o : Option γ} {e : RecErr} {f : γ → M α} {ev : Event} :
    ev ∈ (M.orFail o e f).2 ↔ ∃ a, o = some a ∧ ev ∈ (f a).2 := by
  cases o <;> simp

theorem M.mem_reject {c : Prop} [Decidable c] {e : RecErr} {x : M α} {ev : Event} :
    ev ∈ (M.reject c e x).2 ↔ ¬c ∧ ev ∈ x.2 := by
  by_cases h : c <;> simp [M.reject, h]

theorem mem_encLoopStream (decTb outTb : Rational) (oIdx : Nat) :
    ∀ (s : List EncResp) (ev : Event), ev ∈ (encLoopStream decTb outTb oIdx s).2 →
      ∃ q, ev = Event.writePacket q
  | [], ev, h => by simp [encLoopStream] at h
  | EncResp.err e :: rest, ev, h => by
      cases e <;> simp [encLoopStream] at h
  | EncResp.pkt p werr :: rest, ev, h => by
      rcases werr with _ | e
      · rw [encLoopStream] at h
        simp only [M.tag_snd, List.mem_cons] at h
        rcases h with h | h
        · exact ⟨_, h⟩
        · exact mem_encLoopStream decTb outTb oIdx rest ev h
      · rw [encLoopStream] at h
        simp only [M.tag_snd, List.mem_cons, M.fail_snd, List.not_mem_nil,
          or_false] at h
        exact ⟨_, h⟩

theorem mem_decLoop (decTb outTb : Rational) (oIdx : Nat) :
    ∀ (s : List DecResp) (ev : Event), ev ∈ (decLoop decTb outTb oIdx s).2 →
      ev = Event.sendFrameEnc ∨ ∃ q, ev = Event.writePacket q
  | [], ev, h => by simp [decLoop] at h
  | DecResp.err e :: rest, ev, h => by
      cases e <;> simp [decLoop] at h
  | DecResp.frame sendErr enc :: rest, ev, h => by
      rcases sendErr with _ | e
      · rw [decLoop] at h
        simp only [M.tag_snd, List.mem_cons, M.mem_bind] at h
        rcases h with h | h | h
        · exact Or.inl h
        · exact Or.inr (mem_encLoopStream decTb outTb oIdx enc ev h)
        · rcases h with ⟨a, _, h⟩
          exact mem_decLoop decTb outTb oIdx rest ev h
      · rw [decLoop] at h
        simp only [M.tag_snd, List.mem_cons, M.fail_snd, List.not_mem_nil,
          or_false] at h
        exact Or.inl h

theorem mem_streamLoop (inIdx : Nat) (decTb outTb : Rational) (oIdx : Nat) :
    ∀ (s : List InPacket) (ev : Event), ev ∈ (streamLoop inIdx decTb outTb oIdx s).2 →
      ev = Event.sendPacketDec ∨ ev = Event.sendFrameEnc ∨
        ∃ q, ev = Event.writePacket q
  | [], ev, h => by simp [streamLoop] at h
  | ip :: rest, ev, h => by
      rw [streamLoop] at h
      by_cases hidx : ip.streamIdx = inIdx
      · rw [if_pos hidx] at h
        rcases hse : ip.sendErr with _ | e
        · rw [hse] at h
          simp only [M.tag_snd, List.mem_cons, M.mem_bind] at h
          rcases h with h | h | h
          · exact Or.inl h
          · exact Or.inr (mem_decLoop decTb outTb oIdx ip.decScript ev h)
          · rcases h with ⟨a, _, h⟩
            exact mem_streamLoop inIdx decTb outTb oIdx rest ev h
        · rw [hse] at h
          simp only [M.tag_snd, List.mem_cons, M.fail_snd, List.not_mem_nil,
            or_false] at h
          exact Or.inl h
      · rw [if_neg hidx] at h
        exact mem_streamLoop inIdx decTb outTb oIdx rest ev h

theorem mem_encLoopFinal (oIdx : Nat) :
    ∀ (s : List EncResp) (ev : Event), ev ∈ (encLoopFinal oIdx s).2 →
      ∃ q, ev = Event.writePacket q
  | [], ev, h => by simp [encLoopFinal] at h
  | EncResp.err e :: rest, ev, h => by
      cases e <;> simp [encLoopFinal] at h
  | EncResp.pkt p werr :: rest, ev, h => by
      rcases werr with _ | e
      · rw [encLoopFinal] at h
        simp only [M.tag_snd, List.mem_cons] at h
        rcases h with h | h
        · exact ⟨_, h⟩
        · exact mem_encLoopFinal oIdx rest ev h
      · rw [encLoopFinal] at h
        simp only [M.tag_snd, List.mem_cons, M.fail_snd, List.not_mem_nil,
          or_false] at h
        exact ⟨_, h⟩

theorem negotiate_snd (env : Env) : (negotiate env).2 = [] := by
  rw [List.eq_nil_iff_forall_not_mem]
  intro ev h
  simp [negotiate, M.mem_require, M.mem_orFail] at h

theorem mem_setupPhase (p : RecordParams) (env : Env) (ev : Event)
    (h : ev ∈ (setupPhase p env).2) :
    ev = Event.dupFd env.dupRet ∨ ev = Event.ffmpegInit ∨ ev = Event.openInput ∨
    ev = Event.openDecoder ∨
    ev = Event.sinkNew p.outputFolder (p.filenameTemplate ++ "." ++ p.container) ∨
    (∃ dec outInfo, env.decoderOpen = some dec ∧ env.outputOpen = some outInfo ∧
      ev = Event.configureEncoder (encoderConfigOf dec outInfo.globalHeader p.bitrate)) ∨
    ev = Event.writeHeader := by
  rw [setupPhase] at h
  simp only [M.tag_snd, List.mem_cons, M.mem_reject, M.mem_require, M.mem_orFail,
    M.pure_snd, M.fail_snd, List.not_mem_nil, or_false, and_false, false_and] at h
  aesop

theorem mem_drainFinish (env : Env) (ost : OStreamInfo) (ev : Event)
    (h : ev ∈ (drainFinish env ost).2) :
    ev = Event.sendEofDec ∨ ev = Event.sendEofEnc ∨
    (∃ q, ev = Event.writePacket q) ∨
    ev = Event.writeTrailer ∨ ev = Event.sinkFinalize := by
  rw [drainFinish] at h
  rcases hd : env.sendEofDecErr with _ | e <;> rw [hd] at h
  · rcases he : env.sendEofEncErr with _ | e2 <;> rw [he] at h
    · simp only [M.tag_snd, List.mem_cons, M.mem_require, M.mem_bind, M.fail_snd,
        M.pure_snd, List.not_mem_nil, or_false] at h
      rcases h with h | ⟨_, h⟩
      · exact Or.inl h
      rcases h with h | h | ⟨a, _, h⟩
      · exact Or.inr (Or.inl h)
      · exact Or.inr (Or.inr (Or.inl (mem_encLoopFinal ost.index env.finalScript ev h)))
      · rcases h with ⟨_, h⟩
        rcases h with h | h | h
        · exact Or.inr (Or.inr (Or.inr (Or.inl h)))
        · exact Or.inr (Or.inr (Or.inr (Or.inr h)))
        · simp at h
    · simp only [M.tag_snd, List.mem_cons, M.mem_require, M.fail_snd,
        List.not_mem_nil, or_false] at h
      rcases h with h | ⟨_, h⟩
      · exact Or.inl h
      · exact Or.inr (Or.inl h)
  · simp only [M.tag_snd, List.mem_cons, M.fail_snd, List.not_mem_nil,
      or_false] at h
    exact Or.inl h

theorem mem_startRecording (p : RecordParams) (env : Env) (ev : Event)
    (h : ev ∈ (startRecording p env).2) :
    ev = Event.dupFd env.dupRet ∨ ev = Event.ffmpegInit ∨ ev = Event.openInput ∨
    ev = Event.openDecoder ∨
    ev = Event.sinkNew p.outputFolder (p.filenameTemplate ++ "." ++ p.container) ∨
    (∃ dec outInfo, env.decoderOpen = some dec ∧ env.outputOpen = some outInfo ∧
      ev = Event.configureEncoder (encoderConfigOf dec outInfo.globalHeader p.bitrate)) ∨
    ev = Event.writeHeader ∨ ev = Event.sendPacketDec ∨ ev = Event.sendFrameEnc ∨
    (∃ q, ev = Event.writePacket q) ∨ ev = Event.sendEofDec ∨ ev = Event.sendEofEnc ∨
    ev = Event.writeTrailer ∨ ev = Event.sinkFinalize := by
  rw [startRecording, M.mem_bind] at h
  rcases h with h | ⟨streams, _, h⟩
  · rw [negotiate_snd] at h
    simp at h
  · rcases hh : streams.head? with _ | si <;> rw [hh] at h
    · simp at h
    · rw [M.mem_bind] at h
      rcases h with h | ⟨info, _, h⟩
      · have := mem_setupPhase p env ev h
        aesop
      · rw [M.mem_bind] at h
        rcases h with h | ⟨a, _, h⟩
        · have := mem_streamLoop info.1 info.2.1.timeBase info.2.2.timeBase
            info.2.2.index env.packets ev h
          tauto
        · have := mem_drainFinish env info.2.2 ev h
          tauto

theorem countFinalize_append (a b : List Event) :
    countFinalize (a ++ b) = countFinalize a + countFinalize b := by
  simp [countFinalize, List.countP_append]

theorem countFinalize_eq_zero {tr : List Event} :
    countFinalize tr = 0 ↔ Event.sinkFinalize ∉ tr := by
  simp [countFinalize, List.countP_eq_zero]
  constructor
  · intro h hmem
    exact h Event.sinkFinalize hmem rfl
  · intro h a hmem heq
    exact h (heq ▸ hmem)

theorem countFinalize_setupPhase (p : RecordParams) (env : Env) :
    countFinalize (setupPhase p env).2 = 0 := by
  rw [countFinalize_eq_zero]
  intro h
  rcases mem_setupPhase p env _ h with h1 | h1 | h1 | h1 | h1 | ⟨d, o, _, _, h1⟩ | h1 <;>
    simp at h1

theorem countFinalize_streamLoop (inIdx : Nat) (decTb outTb : Rational) (oIdx : Nat)
    (s : List InPacket) : countFinalize (streamLoop inIdx decTb outTb oIdx s).2 = 0 := by
  rw [countFinalize_eq_zero]
  intro h
  rcases mem_streamLoop inIdx decTb outTb oIdx s _ h with h1 | h1 | ⟨q, h1⟩ <;>
    simp at h1

theorem countFinalize_encLoopFinal (oIdx : Nat) (s : List EncResp) :
    countFinalize (encLoopFinal oIdx s).2 = 0 := by
  rw [countFinalize_eq_zero]
  intro h
  rcases mem_encLoopFinal oIdx s _ h with ⟨q, h1⟩
  simp at h1

theorem drainFinish_shape (env : Env) (ost : OStreamInfo) :
    ((drainFinish env ost).1 ≠ Except.ok () ∧
      countFinalize (drainFinish env ost).2 = 0) ∨
    (∃ pre, (drainFinish env ost).2 = pre ++ [Event.writeTrailer, Event.sinkFinalize] ∧
      countFinalize pre = 0) := by
  rw [drainFinish]
  rcases hd : env.sendEofDecErr with _ | e
  · cases hg : env.getEncoderFinishOk
    · left
      constructor <;> simp [countFinalize]
    · rcases he : env.sendEofEncErr with _ | e2
      · rcases hfst : (encLoopFinal ost.index env.finalScript).1 with e3 | u
        · left
          constructor
          · simp [M.bind_fst_error hfst]
          · simp only [M.require_true, M.tag_snd, M.bind_snd_error hfst]
            have h0 := countFinalize_encLoopFinal ost.index env.finalScript
            simp [countFinalize] at h0 ⊢
            exact h0
        · cases ht : env.writeTrailerOk
          · left
            constructor
            · simp [M.bind_fst_ok hfst]
            · simp only [M.require_true, M.require_false, M.tag_snd,
                M.bind_snd_ok hfst, M.fail_snd, List.append_nil]
              have h0 := countFinalize_encLoopFinal ost.index env.finalScript
              simp [countFinalize] at h0 ⊢
              exact h0
          · right
            refine ⟨Event.sendEofDec :: Event.sendEofEnc ::
              (encLoopFinal ost.index env.finalScript).2, ?_, ?_⟩
            · cases hf : env.finalizeOk <;>
                simp [M.bind_snd_ok hfst, M.require, hf, List.append_assoc]
            · have h0 := countFinalize_encLoopFinal ost.index env.finalScript
              simp [countFinalize] at h0 ⊢
              exact h0
      · left
        constructor <;> simp [countFinalize, he]
  · left
    constructor <;> simp [countFinalize]

theorem run_shape (p : RecordParams) (env : Env) :
    ((startRecording p env).1 ≠ Except.ok () ∧
      countFinalize (startRecording p env).2 = 0) ∨
    (∃ pre, (startRecording p env).2 = pre ++ [Event.writeTrailer, Event.sinkFinalize] ∧
      countFinalize pre = 0) := by
  rw [startRecording]
  rcases hneg : (negotiate env).1 with e | streams
  · left
    rw [M.bind_fst_error hneg, M.bind_snd_error hneg, negotiate_snd]
    exact ⟨by simp, rfl⟩
  · rw [M.bind_fst_ok hneg, M.bind_snd_ok hneg, negotiate_snd, List.nil_append]
    rcases hh : streams.head? with _ | si
    · left
      exact ⟨by simp, rfl⟩
    · rcases hsetup : (setupPhase p env).1 with e | info
      · left
        rw [M.bind_fst_error hsetup, M.bind_snd_error hsetup]
        exact ⟨by simp, countFinalize_setupPhase p env⟩
      · rw [M.bind_fst_ok hsetup, M.bind_snd_ok hsetup]
        rcases hloop : (streamLoop info.1 info.2.1.timeBase info.2.2.timeBase
            info.2.2.index env.packets).1 with e | u
        · left
          rw [M.bind_fst_error hloop, M.bind_snd_error hloop]
          refine ⟨by simp, ?_⟩
          rw [countFinalize_append, countFinalize_setupPhase,
            countFinalize_streamLoop]
        · rw [M.bind_fst_ok hloop, M.bind_snd_ok hloop]
          rcases drainFinish_shape env info.2.2 with ⟨h1, h2⟩ | ⟨pre, h1, h2⟩
          · left
            refine ⟨h1, ?_⟩
            rw [countFinalize_append, countFinalize_append,
              countFinalize_setupPhase, countFinalize_streamLoop, h2]
          · right
            refine ⟨(setupPhase p env).2 ++ ((streamLoop info.1 info.2.1.timeBase
              info.2.2.timeBase info.2.2.index env.packets).2 ++ pre), ?_, ?_⟩
            · rw [h1, List.append_assoc, List.append_assoc]
            · rw [countFinalize_append, countFinalize_append,
                countFinalize_setupPhase, countFinalize_streamLoop, h2]

theorem tdiv_mul_add_half (x c : Int) (hc : 0 < c) (hx : 0 ≤ x) :
    Int.tdiv (x * c + Int.tdiv c 2) c = x := by
  have h2 : Int.tdiv c 2 = c / 2 := Int.tdiv_eq_ediv (by omega) (by omega)
  have hr0 : 0 ≤ c / 2 := by omega
  have hrc : c / 2 < c := by omega
  have hxc : 0 ≤ x * c := mul_nonneg hx (le_of_lt hc)
  have hnum : 0 ≤ x * c + Int.tdiv c 2 := by omega
  rw [h2] at hnum ⊢
  rw [Int.tdiv_eq_ediv hnum (by omega), add_comm,
    Int.add_mul_ediv_right _ _ (by omega : c ≠ 0),
    Int.ediv_eq_zero_of_lt hr0 hrc, zero_add]

theorem avRescaleRnd_same (a c : Int) (hc : 0 < c) : avRescaleRnd a c c = a := by
  unfold avRescaleRnd
  by_cases ha : a < 0
  · rw [if_pos ha, tdiv_mul_add_half (-a) c hc (by omega)]
    omega
  · rw [if_neg ha]
    exact tdiv_mul_add_half a c hc (by omega)

theorem avRescaleQ_same (a : Int) (tb : Rational) (hn : 0 < tb.num)
    (hd : 0 < tb.den) : avRescaleQ a tb tb = a := by
  unfold avRescaleQ
  exact avRescaleRnd_same a (tb.num * tb.den) (mul_pos hn hd)

theorem wrap64_eq_self {x : Int} (h1 : -(2 ^ 63) ≤ x) (h2 : x < 2 ^ 63) :
    wrap64 x = x := by
  unfold wrap64
  have hp63 : (2 : Int) ^ 63 = 9223372036854775808 := by norm_num
  have hp64 : (2 : Int) ^ 64 = 18446744073709551616 := by norm_num
  rw [hp63] at h1 h2 ⊢
  rw [hp64]
  have hmod : (x + 9223372036854775808) % 18446744073709551616 =
      x + 9223372036854775808 := Int.emod_eq_of_lt (by omega) (by omega)
  omega

theorem bitRateOf_eq (b : Nat) (hb : b < 2 ^ 32) :
    bitRateOf b = (b : Int) * 1000 := by
  unfold bitRateOf i64Mul
  have hb' : (b : Int) < 2 ^ 32 := by exact_mod_cast hb
  have h0 : 0 ≤ (b : Int) := Int.natCast_nonneg b
  apply wrap64_eq_self
  · have : 0 ≤ (b : Int) * 1000 := mul_nonneg h0 (by norm_num)
    have hneg : -(2 ^ 63 : Int) ≤ 0 := by norm_num
    omega
  · have hstep : (b : Int) * 1000 < 2 ^ 32 * 1000 :=
      mul_lt_mul_of_pos_right hb' (by norm_num)
    have : (2 : Int) ^ 32 * 1000 < 2 ^ 63 := by norm_num
    omega

/-- C1: the claim states that every encoded packet written to the muxer, in
Streaming as well as in end-of-stream Draining, is rescaled from the decoder
time base to the output stream time base before the write, the draining path
performing the same per-packet write step as the steady-state path.  The code
violates this: in a fully successful run the steady-state packet is written
rescaled (pts 1 ms becomes 90 at 90 kHz), but the packet released during
draining (after EOF was sent to decoder and encoder) is written with its
timestamps unchanged, because src/main.rs:202-204 omits the rescale_ts of
src/main.rs:173; the two write steps differ on the same packet. -/
theorem startRecording_drain_packet_written_unrescaled :
    (startRecording pDemo envHappy).1 = Except.ok () ∧
    (startRecording pDemo envHappy).2 =
      [Event.dupFd 8, Event.ffmpegInit, Event.openInput, Event.openDecoder,
       Event.sinkNew "rec" "demo.mp4",
       Event.configureEncoder (encoderConfigOf decDemo true 2000),
       Event.writeHeader, Event.sendPacketDec, Event.sendFrameEnc,
       Event.writePacket { streamIndex := 0, pts := 90, dts := 90, duration := 90 },
       Event.sendEofDec, Event.sendEofEnc,
       Event.writePacket { streamIndex := 0, pts := 1, dts := 1, duration := 1 },
       Event.writeTrailer, Event.sinkFinalize] ∧
    writeStepStreaming tbDec tbOut ostDemo.index pktRaw =
      { streamIndex := 0, pts := 90, dts := 90, duration := 90 } ∧
    writeStepDraining ostDemo.index pktRaw =
      { streamIndex := 0, pts := 1, dts := 1, duration := 1 } ∧
    writeStepDraining ostDemo.index pktRaw ≠
      writeStepStreaming tbDec tbOut ostDemo.index pktRaw := by
  decide

/-- C2 counterexample: the claim states that only the "no output ready yet"
(EAGAIN) and "end of stream" conditions terminate the inner drain loops
without error.  But the break arms match every errno-carrying Other error:
with errno 5 (neither EAGAIN nor end of stream) all three drain loops
terminate without error instead of aborting. -/
theorem drain_loop_breaks_on_plain_errno :
    encLoopStream tbDec tbOut 0 [EncResp.err (FFError.other 5)] =
      (Except.ok (), []) ∧
    decLoop tbDec tbOut 0 [DecResp.err (FFError.other 5)] = (Except.ok (), []) ∧
    encLoopFinal 0 [EncResp.err (FFError.other 5)] = (Except.ok (), []) ∧
    FFError.other 5 ≠ FFError.other eagain ∧ FFError.other 5 ≠ FFError.eof := by
  decide

/-- C2 (amended): in all three drain loops the conditions that terminate the
loop without error are exactly end of stream (Eof) and the errno-carrying
Other family, which contains the EAGAIN "no output ready yet" case but also
every other AVERROR(errno); every error outside these two shapes is fatal
and aborts the pipeline with the corresponding receive error. -/
theorem drain_loops_break_iff_other_errno_or_eof (e : FFError)
    (decTb outTb : Rational) (oIdx : Nat) (s1 s2 : List EncResp)
    (s3 : List DecResp) :
    (FFError.breaksDrain e = true ↔ ((∃ n, e = FFError.other n) ∨ e = FFError.eof)) ∧
    encLoopStream decTb outTb oIdx (EncResp.err e :: s1) =
      (if FFError.breaksDrain e = true then (Except.ok (), [])
       else (Except.error (RecErr.receivePacket e), [])) ∧
    decLoop decTb outTb oIdx (DecResp.err e :: s3) =
      (if FFError.breaksDrain e = true then (Except.ok (), [])
       else (Except.error (RecErr.receiveFrame e), [])) ∧
    encLoopFinal oIdx (EncResp.err e :: s2) =
      (if FFError.breaksDrain e = true then (Except.ok (), [])
       else (Except.error (RecErr.receiveFinalPacket e), [])) := by
  cases e <;>
    simp [FFError.breaksDrain, encLoopStream, decLoop, encLoopFinal, M.pure, M.fail]

/-- C3: if the portal negotiation reaches the Start call and Start answers
with an empty stream list, start_recording fails with the no-stream error and
its trace is empty: no descriptor duplication, no FFmpeg init, no input or
decoder opening, no sink construction, no encoder configuration, no header,
packet or trailer write, and no sink finalize ever happen. -/
theorem noStreams_fails_before_setup (p : RecordParams) (env : Env) (sh : String)
    (h1 : env.contextOk = true) (h2 : env.connectionOk = true)
    (h3 : env.proxyOk = true) (h4 : env.createSessionRes = some sh)
    (h5 : env.selectSourcesOk = true) (h6 : env.startRes = some []) :
    (startRecording p env).1 = Except.error RecErr.noStreams ∧
    (startRecording p env).2 = [] ∧
    (∀ r, Event.dupFd r ∉ (startRecording p env).2) ∧
    Event.ffmpegInit ∉ (startRecording p env).2 ∧
    Event.openInput ∉ (startRecording p env).2 ∧
    Event.openDecoder ∉ (startRecording p env).2 ∧
    (∀ b o, Event.sinkNew b o ∉ (startRecording p env).2) ∧
    (∀ cfg, Event.configureEncoder cfg ∉ (startRecording p env).2) ∧
    Event.writeHeader ∉ (startRecording p env).2 ∧
    (∀ q, Event.writePacket q ∉ (startRecording p env).2) ∧
    Event.writeTrailer ∉ (startRecording p env).2 ∧
    Event.sinkFinalize ∉ (startRecording p env).2 := by
  have hneg : negotiate env = (Except.ok ([] : List StreamInfo), []) := by
    simp [negotiate, h1, h2, h3, h4, h5, h6, M.pure]
  have hrun : startRecording p env = (Except.error RecErr.noStreams, []) := by
    simp [startRecording, M.bind, hneg, M.fail]
  rw [hrun]
  simp

/-- C3 witness: the concrete environment whose Start call answers zero
streams satisfies the hypotheses, and the run fails with the no-stream
error. -/
theorem noStreams_fails_before_setup_witness :
    envNoStream.startRes = some [] ∧
    (startRecording pDemo envNoStream).1 = Except.error RecErr.noStreams :=
  ⟨rfl, (noStreams_fails_before_setup pDemo envNoStream "session0"
    rfl rfl rfl rfl rfl rfl).1⟩

/-- C4: the claim states that on every execution the duplicated capture
descriptor is closed exactly once before the attempt completes.  The code
violates this: start_recording contains no close of the descriptor returned
by libc::dup (src/main.rs:88) on any path, so even a fully successful run
that duplicated the descriptor performs no close event at all — the
descriptor leaks until process exit. -/
theorem startRecording_never_closes_dup_descriptor :
    (startRecording pDemo envHappy).1 = Except.ok () ∧
    Event.dupFd 8 ∈ (startRecording pDemo envHappy).2 ∧
    ∀ (p : RecordParams) (env : Env),
      ((startRecording p env).2.all (fun ev => !ev.isCloseFd)) = true := by
  refine ⟨by decide, by decide, ?_⟩
  intro p env
  rw [List.all_eq_true]
  intro ev hev
  rcases mem_startRecording p env ev hev with
    h | h | h | h | h | ⟨d, o, _, _, h⟩ | h | h | h | ⟨q, h⟩ | h | h | h | h <;>
    subst h <;> rfl

/-- C5: the sink finalize is invoked exactly once per successful attempt and
only after the trailer write completed: a successful run's trace ends with
the trailer-write event immediately followed by the single finalize event,
and any trace containing a finalize event at all has that exact shape, so
finalize never happens on a path where the trailer write did not complete. -/
theorem finalize_once_after_trailer (p : RecordParams) (env : Env) :
    ((startRecording p env).1 = Except.ok () →
      ∃ pre, (startRecording p env).2 =
          pre ++ [Event.writeTrailer, Event.sinkFinalize] ∧
        countFinalize pre = 0) ∧
    (Event.sinkFinalize ∈ (startRecording p env).2 →
      ∃ pre, (startRecording p env).2 =
          pre ++ [Event.writeTrailer, Event.sinkFinalize] ∧
        countFinalize pre = 0) := by
  rcases run_shape p env with ⟨h1, h2⟩ | ⟨pre, h1, h2⟩
  · constructor
    · intro h
      exact absurd h h1
    · intro h
      exact absurd h (countFinalize_eq_zero.mp h2)
  · exact ⟨fun _ => ⟨pre, h1, h2⟩, fun _ => ⟨pre, h1, h2⟩⟩

/-- C5 witness: the fully successful environment finishes with ok and its
trace ends with the trailer write followed by the unique finalize. -/
theorem finalize_once_after_trailer_witness :
    ∃ pre, (startRecording pDemo envHappy).2 =
        pre ++ [Event.writeTrailer, Event.sinkFinalize] ∧
      countFinalize pre = 0 :=
  (finalize_once_after_trailer pDemo envHappy).1 rfl

/-- C6: whenever the encoder is configured during a run, its width and height
equal the decoder's, its pixel format is planar YUV 4:2:0, its time base
equals the decoder's time base, its bit rate equals the requested kbps value
times 1000 (exactly, for any u32 bitrate), and its GLOBAL_HEADER flag is set
exactly when the output container format requires a global header. -/
theorem encoder_config_matches_decoder (p : RecordParams) (env : Env)
    (cfg : EncoderConfig) (hb : p.bitrate < 2 ^ 32)
    (h : Event.configureEncoder cfg ∈ (startRecording p env).2) :
    ∃ dec outInfo, env.decoderOpen = some dec ∧ env.outputOpen = some outInfo ∧
      cfg.width = dec.width ∧ cfg.height = dec.height ∧
      cfg.pixFormat = PixelFormat.yuv420p ∧ cfg.timeBase = dec.timeBase ∧
      cfg.bitRate = (p.bitrate : Int) * 1000 ∧
      cfg.globalHeaderFlag = outInfo.globalHeader := by
  rcases mem_startRecording p env _ h with
    h1 | h1 | h1 | h1 | h1 | ⟨dec, oI, hdec, hout, h1⟩ | h1 | h1 | h1 | ⟨q, h1⟩ |
      h1 | h1 | h1 | h1 <;> try simp at h1
  subst h1
  exact ⟨dec, oI, hdec, hout, rfl, rfl, rfl, rfl, bitRateOf_eq p.bitrate hb, rfl⟩

/-- C6 witness: in the fully successful environment the encoder is configured
with the demo decoder's dimensions and time base, bit rate 2000000 and the
global-header flag set. -/
theorem encoder_config_matches_decoder_witness :
    pDemo.bitrate < 2 ^ 32 ∧
    ∃ dec outInfo, envHappy.decoderOpen = some dec ∧
      envHappy.outputOpen = some outInfo ∧
      (encoderConfigOf decDemo true 2000).width = dec.width ∧
      (encoderConfigOf decDemo true 2000).height = dec.height ∧
      (encoderConfigOf decDemo true 2000).pixFormat = PixelFormat.yuv420p ∧
      (encoderConfigOf decDemo true 2000).timeBase = dec.timeBase ∧
      (encoderConfigOf decDemo true 2000).bitRate = (pDemo.bitrate : Int) * 1000 ∧
      (encoderConfigOf decDemo true 2000).globalHeaderFlag = outInfo.globalHeader :=
  ⟨by decide, encoder_config_matches_decoder pDemo envHappy
    (encoderConfigOf decDemo true 2000) (by decide) (by decide)⟩

/-- C7: whenever the sink is constructed during a run, its bucket identifier
is exactly the request's output_folder field and its object key is the
filename template, a dot, and the container string. -/
theorem object_name_and_bucket (p : RecordParams) (env : Env) (b o : String)
    (h : Event.sinkNew b o ∈ (startRecording p env).2) :
    b = p.outputFolder ∧ o = p.filenameTemplate ++ "." ++ p.container := by
  rcases mem_startRecording p env _ h with
    h1 | h1 | h1 | h1 | h1 | ⟨dec, oI, hdec, hout, h1⟩ | h1 | h1 | h1 | ⟨q, h1⟩ |
      h1 | h1 | h1 | h1 <;> try simp at h1
  exact ⟨h1.1, h1.2⟩

/-- C7 witness: the demo request produces bucket "rec" and object key
"demo.mp4". -/
theorem object_name_and_bucket_witness :
    Event.sinkNew "rec" "demo.mp4" ∈ (startRecording pDemo envHappy).2 ∧
    "rec" = pDemo.outputFolder ∧
    "demo.mp4" = pDemo.filenameTemplate ++ "." ++ pDemo.container :=
  ⟨by decide, object_name_and_bucket pDemo envHappy "rec" "demo.mp4" (by decide)⟩

/-- C8: timestamp rescaling is the identity under identical time bases: for
every packet, rescaling from a (valid, positive) time base to the very same
time base returns the packet unchanged, exactly. -/
theorem rescaleTs_identity_on_equal_timebase (p : Packet) (tb : Rational)
    (hn : 0 < tb.num) (hd : 0 < tb.den) : rescaleTs p tb tb = p := by
  rcases p with ⟨si, pts, dts, dur⟩
  simp only [rescaleTs, Packet.mk.injEq, true_and]
  refine ⟨?_, ?_, ?_⟩
  · split_ifs with h
    · rfl
    · exact avRescaleQ_same pts tb hn hd
  · split_ifs with h
    · rfl
    · exact avRescaleQ_same dts tb hn hd
  · split_ifs with h
    · exact avRescaleQ_same dur tb hn hd
    · rfl

/-- C8 witness: rescaling the demo packet from the millisecond time base to
itself leaves it unchanged. -/
theorem rescaleTs_identity_on_equal_timebase_witness :
    0 < tbDec.num ∧ 0 < tbDec.den ∧ rescaleTs pktRaw tbDec tbDec = pktRaw :=
  ⟨by decide, by decide,
    rescaleTs_identity_on_equal_timebase pktRaw tbDec (by decide) (by decide)⟩

/-- C9: two requests that agree on output_folder, filename_template,
container and bitrate but differ arbitrarily in encoding_mode and/or
audio_device produce identical executions of start_recording in every
environment — neither field is read anywhere in the recording pipeline. -/
theorem startRecording_ignores_mode_and_audio (p1 p2 : RecordParams) (env : Env)
    (h1 : p1.outputFolder = p2.outputFolder)
    (h2 : p1.filenameTemplate = p2.filenameTemplate)
    (h3 : p1.container = p2.container) (h4 : p1.bitrate = p2.bitrate) :
    startRecording p1 env = startRecording p2 env := by
  rcases p1 with ⟨o1, f1, c1, b1, m1, a1⟩
  rcases p2 with ⟨o2, f2, c2, b2, m2, a2⟩
  simp only at h1 h2 h3 h4
  subst h1
  subst h2
  subst h3
  subst h4
  rfl

/-- C9 witness: the CBR/default request and its VBR/other-device variant run
identically in the fully successful environment. -/
theorem startRecording_ignores_mode_and_audio_witness :
    pDemo.outputFolder = pDemoVbr.outputFolder ∧
    pDemo.filenameTemplate = pDemoVbr.filenameTemplate ∧
    pDemo.container = pDemoVbr.container ∧
    pDemo.bitrate = pDemoVbr.bitrate ∧
    pDemo.encodingMode ≠ pDemoVbr.encodingMode ∧
    startRecording pDemo envHappy = startRecording pDemoVbr envHappy :=
  ⟨rfl, rfl, rfl, rfl, by decide,
    startRecording_ignores_mode_and_audio pDemo pDemoVbr envHappy rfl rfl rfl rfl⟩

/-- C10: for every u32 bitrate value the encoder bit-rate computation
bitrate as i64 * 1000 is exact: the wrapped i64 product equals the
mathematical product, with no overflow. -/
theorem bitrate_i64_product_exact (b : Nat) (hb : b < 2 ^ 32) :
    bitRateOf b = (b : Int) * 1000 :=
  bitRateOf_eq b hb

/-- C10 witness: at the largest u32 value the computation is still exact. -/
theorem bitrate_i64_product_exact_witness :
    4294967295 < 2 ^ 32 ∧ bitRateOf 4294967295 = (4294967295 : Int) * 1000 :=
  ⟨by norm_num, bitrate_i64_product_exact 4294967295 (by norm_num)⟩
